import Mathlib

/-!
Verification of the auto-git change-scanning and response-normalization
pipeline, shallowly embedded from the Go sources.

Go strings are modelled as lists of Unicode scalar values (`GoStr`); the
relevant functions of the Go standard library (`strings.TrimSpace`,
`strings.Fields`, `strings.Split`, `strings.Join`, `strings.Replace`,
prefix and suffix handling, `fmt.Sscanf` with the %d verb) are embedded
below, restricted to ASCII case mapping where Go consults Unicode tables.
-/

namespace AutoGit

abbrev GoStr := List Char

/-- A Lean string literal as a `GoStr`. -/
def strLit (s : String) : GoStr := s.data

/-- Go `unicode.IsSpace`: ASCII whitespace plus the Unicode space characters. -/
def isGoSpace (c : Char) : Bool :=
  c = ' ' || c = '\t' || c = '\n' || c = '\x0b' || c = '\x0c' || c = '\r' ||
  c.val = 0x85 || c.val = 0xA0 || c.val = 0x1680 ||
  (0x2000 ≤ c.val && c.val ≤ 0x200A) ||
  c.val = 0x2028 || c.val = 0x2029 || c.val = 0x202F || c.val = 0x205F || c.val = 0x3000

/-- Go `strings.TrimSpace`: drop leading and trailing whitespace. -/
def trimSpace (s : GoStr) : GoStr :=
  ((s.dropWhile isGoSpace).reverse.dropWhile isGoSpace).reverse

/-- Go `strings.Split(s, sep)` for a one-character separator. -/
def splitOnChar (sep : Char) : GoStr → List GoStr
  | [] => [[]]
  | c :: rest =>
    if c = sep then [] :: splitOnChar sep rest
    else
      match splitOnChar sep rest with
      | [] => [[c]]
      | g :: gs => (c :: g) :: gs

/-- Accumulator loop of `goFields`; `acc` holds the current field reversed. -/
def goFieldsAux : GoStr → GoStr → List GoStr
  | [], acc => if acc = [] then [] else [acc.reverse]
  | c :: rest, acc =>
    if isGoSpace c then
      if acc = [] then goFieldsAux rest []
      else acc.reverse :: goFieldsAux rest []
    else goFieldsAux rest (c :: acc)

/-- Go `strings.Fields`: split around runs of whitespace, dropping empties. -/
def goFields (s : GoStr) : List GoStr := goFieldsAux s []

/-- Go `strings.HasPrefix`. -/
def hasPrefix (s pre : GoStr) : Bool := pre.isPrefixOf s

/-- Go `strings.HasSuffix`. -/
def hasSuffix (s suf : GoStr) : Bool := suf.reverse.isPrefixOf s.reverse

/-- Go `strings.TrimPrefix`. -/
def trimPrefix (s pre : GoStr) : GoStr :=
  if pre.isPrefixOf s then s.drop pre.length else s

/-- Go `strings.TrimSuffix`. -/
def trimSuffix (s suf : GoStr) : GoStr :=
  if hasSuffix s suf then s.take (s.length - suf.length) else s

/-- ASCII case lowering (the fragment of Go `strings.ToLower` the pipeline
exercises). -/
def toLowerAscii (s : GoStr) : GoStr :=
  s.map fun c => if 'A' ≤ c && c ≤ 'Z' then Char.ofNat (c.toNat + 32) else c

/-- Go `strings.EqualFold`, restricted to ASCII folding. -/
def equalFold (a b : GoStr) : Bool := toLowerAscii a == toLowerAscii b

/-- Go `strings.Join(parts, sep)`. -/
def joinWith (sep : GoStr) : List GoStr → GoStr
  | [] => []
  | [x] => x
  | x :: y :: rest => x ++ sep ++ joinWith sep (y :: rest)

/-- Go `strings.Replace(s, old, new, 1)`: replace the first occurrence. -/
def replaceFirst : GoStr → GoStr → GoStr → GoStr
  | [], old, new => if old.isPrefixOf [] then new else []
  | c :: rest, old, new =>
    if old.isPrefixOf (c :: rest) then new ++ (c :: rest).drop old.length
    else c :: replaceFirst rest old new

/-- Value of a string of decimal digits. -/
def digitsToNat (ds : GoStr) : Nat :=
  ds.foldl (fun acc c => acc * 10 + (c.toNat - 48)) 0

/-- The maximal digit run consumed by the %d verb of `fmt.Sscanf`, after
leading spaces and an optional sign. -/
def sscanfDigits (s : GoStr) : GoStr :=
  match s.dropWhile isGoSpace with
  | '-' :: rest => rest.takeWhile Char.isDigit
  | '+' :: rest => rest.takeWhile Char.isDigit
  | rest => rest.takeWhile Char.isDigit

/-- Whether the %d verb of `fmt.Sscanf` sees a leading minus sign. -/
def sscanfNeg (s : GoStr) : Bool :=
  match s.dropWhile isGoSpace with
  | '-' :: _ => true
  | _ => false

/-- Go `fmt.Sscanf(s, "%d", &x)` on a zero-initialized int: skip leading
spaces, read an optional sign and a maximal run of decimal digits; when no
digit is found the scan fails and `x` keeps its zero value. -/
def scanInt (s : GoStr) : Int :=
  if sscanfDigits s = [] then 0
  else if sscanfNeg s then -(digitsToNat (sscanfDigits s) : Int)
  else (digitsToNat (sscanfDigits s) : Int)

/-- Whether `fmt.Sscanf(s, "%d", _)` finds an integer (an optional sign
followed by at least one digit, after leading spaces). -/
def hasIntForm (s : GoStr) : Bool := sscanfDigits s ≠ []

/-! ## internal/git/scanner.go -/

/-- `ChangeType` of internal/git/scanner.go. -/
inductive ChangeType where
  | added
  | modified
  | deleted
  | renamed
  deriving DecidableEq, Repr

/-- `FileChange` of internal/git/scanner.go.  Go `int` is modelled as `Int`. -/
structure FileChange where
  path : GoStr
  type : ChangeType
  additions : Int
  deletions : Int
  deriving DecidableEq, Repr

/-- `determineChangeType` of internal/git/scanner.go. -/
def determineChangeType (additions deletions : Int) : ChangeType :=
  if additions > 0 ∧ deletions = 0 then .added
  else if additions = 0 ∧ deletions > 0 then .deleted
  else .modified

/-- Outcome of one iteration of the `parseDiffOutput` loop. -/
inductive LineResult where
  | skip
  | record (fc : FileChange)
  | panicIdx
  deriving DecidableEq, Repr

/-- The body of the `parseDiffOutput` loop once the line's fields are split:
lines with fewer than two fields are skipped; the Go code then reads
`parts[2]`, which panics with an index-out-of-range error when the line has
exactly two fields. -/
def processFields : List GoStr → LineResult
  | [] => .skip
  | [_] => .skip
  | [_, _] => .panicIdx
  | p0 :: p1 :: p2 :: rest =>
    let additions := scanInt p0
    let deletions := scanInt p1
    let filePath :=
      if (p0 :: p1 :: p2 :: rest).length > 3 then joinWith (strLit " ") (p2 :: rest) else p2
    .record
      { path := filePath
        type := determineChangeType additions deletions
        additions := additions
        deletions := deletions }

/-- One iteration of the `parseDiffOutput` loop: trim the line, skip it when
empty, otherwise process its whitespace-delimited fields. -/
def processLine (line : GoStr) : LineResult :=
  let l := trimSpace line
  if l = [] then .skip else processFields (goFields l)

/-- The `parseDiffOutput` loop over the split lines; `none` models a runtime
panic escaping the function. -/
def parseLines : List GoStr → Option (List FileChange)
  | [] => some []
  | l :: rest =>
    match processLine l with
    | .skip => parseLines rest
    | .panicIdx => none
    | .record fc => (parseLines rest).map (fc :: ·)

/-- `parseDiffOutput` of internal/git/scanner.go (the `staged` flag does not
influence the result and is omitted; the Go error result is always nil).
`none` models a runtime panic. -/
def parseDiffOutput (output : GoStr) : Option (List FileChange) :=
  if output = [] then some []
  else parseLines (splitOnChar '\n' (trimSpace output))

/-! ## internal/prompt/builder.go -/

/-- `isASCII` of internal/prompt/builder.go: every rune is at most 127. -/
def isASCIIStr (s : GoStr) : Bool := s.all fun c => c.val ≤ 127

/-- `validCommitTypes` of internal/prompt/builder.go.  The Go map is keyed by
the twelve type names; its random iteration order is immaterial because the
extracted type name is already lowercase, so at most one vocabulary member can
match it case-insensitively. -/
def validCommitTypes : List GoStr :=
  [strLit "feat", strLit "fix", strLit "core", strLit "edit", strLit "del",
   strLit "chore", strLit "docs", strLit "style", strLit "refactor",
   strLit "perf", strLit "test", strLit "ci"]

/-- The type-token position chosen by `validateAndNormalizeCommitType`: token 1
when token 0 looks like an emoji (a single rune, or any non-ASCII rune),
token 0 otherwise. -/
def typeIndexOf (parts : List GoStr) : Nat :=
  if parts.length > 1 ∧ ((parts.headD []).length = 1 ∨ isASCIIStr (parts.headD []) = false)
  then 1 else 0

/-- Extraction of the type name from the type token in
`validateAndNormalizeCommitType`: the lower-cased text before the first `(`,
else before the first `:`, else the whole token. -/
def extractTypeName (typePart : GoStr) : GoStr :=
  if typePart.contains '(' then toLowerAscii (typePart.takeWhile (· ≠ '('))
  else if typePart.contains ':' then toLowerAscii (typePart.takeWhile (· ≠ ':'))
  else toLowerAscii typePart

/-- `validateAndNormalizeCommitType` of internal/prompt/builder.go.  Note that
in both rewriting branches the Go code runs
`strings.Replace(parts[typeIndex], typePart, replacement, 1)` where
`typePart == parts[typeIndex]`, so the whole token (scope and colon included)
is replaced by the bare type name. -/
def validateAndNormalizeCommitType (message : GoStr) : GoStr :=
  let parts := goFields message
  if parts = [] then message
  else
    let typeIndex := typeIndexOf parts
    if typeIndex ≥ parts.length then message
    else
      let typePart := parts.getD typeIndex []
      let typeName := extractTypeName typePart
      if validCommitTypes.contains typeName = false then
        match validCommitTypes.find? (fun v => equalFold typeName v) with
        | some validType =>
          joinWith (strLit " ") (parts.set typeIndex (replaceFirst typePart typePart validType))
        | none =>
          if hasPrefix (toLowerAscii message) (strLit "chore") = false ∧
             hasPrefix (toLowerAscii message) (strLit "feat") = false ∧
             hasPrefix (toLowerAscii message) (strLit "fix") = false then
            strLit "chore: " ++ message
          else message
      else
        if typeName = typePart then message
        else
          joinWith (strLit " ") (parts.set typeIndex (replaceFirst typePart typePart typeName))

/-- The tail of `ExtractCommitMessage`: strip one trailing fence marker, then
validate and normalize the commit type. -/
def stripTrailingFenceAndValidate (firstLine : GoStr) : GoStr :=
  let fl :=
    if hasSuffix firstLine (strLit "```") then
      trimSpace (trimSuffix firstLine (strLit "```"))
    else firstLine
  validateAndNormalizeCommitType fl

/-- `ExtractCommitMessage` of internal/prompt/builder.go. -/
def ExtractCommitMessage (response : GoStr) : GoStr :=
  let r := trimSpace response
  match splitOnChar '\n' r with
  | [] => []
  | l0 :: rest =>
    let firstLine := trimSpace l0
    if firstLine = [] then []
    else
      let firstLine :=
        if hasPrefix (toLowerAscii firstLine) (strLit "commit message:") then
          trimSpace (trimPrefix (trimPrefix firstLine (strLit "commit message:"))
            (strLit "Commit message:"))
        else firstLine
      if hasPrefix firstLine (strLit "```") then
        match rest with
        | [] => []
        | l1 :: _ => stripTrailingFenceAndValidate (trimSpace l1)
      else stripTrailingFenceAndValidate firstLine

/-! ## GetChanges (internal/git/scanner.go)

`GetChanges` shells out to `git diff`; the results of those external calls,
the working directory reported by `os.Getwd` (modelled as always succeeding),
the filesystem queried by `os.Stat`, and the terminal color formatters of the
fatih/color package are supplied by a `GitEnv`. -/

/-- `Changes` of internal/git/scanner.go. -/
structure Changes where
  staged : List FileChange
  unstaged : List FileChange
  summary : GoStr
  deriving DecidableEq, Repr

/-- Environment for `GetChanges`: a directory path is a list of components,
`gitDirAt dir` tells whether `os.Stat(dir/".git")` succeeds and finds a
directory, `stagedOut`/`unstagedOut` are the outputs of the two `git diff`
commands and the `CmdOk` flags whether those commands succeeded. -/
structure GitEnv where
  cwd : List GoStr
  gitDirAt : List GoStr → Bool
  stagedCmdOk : Bool
  stagedOut : GoStr
  unstagedCmdOk : Bool
  unstagedOut : GoStr
  green : GoStr → GoStr
  red : GoStr → GoStr
  yellow : GoStr → GoStr

/-- `IsGitRepo` of internal/git/scanner.go: whether `dir/.git` exists and is a
directory.  No ancestor of `dir` is consulted. -/
def IsGitRepo (env : GitEnv) (dir : List GoStr) : Bool := env.gitDirAt dir

/-- Go `fmt.Sprintf("%d", n)` for an int. -/
def intToStr (n : Int) : GoStr :=
  if n < 0 then '-' :: Nat.toDigits 10 n.natAbs else Nat.toDigits 10 n.natAbs

/-- `buildSummary` of internal/git/scanner.go, with the three color sprint
functions passed in from the environment. -/
def buildSummary (green red yellow : GoStr → GoStr)
    (staged unstaged : List FileChange) : GoStr :=
  let group (label : GoStr) (cs : List FileChange) : List GoStr :=
    (yellow label ++ strLit ": " ++ intToStr cs.length ++ strLit " file(s)") ::
    cs.map fun change =>
      strLit "  " ++ green (strLit "+" ++ intToStr change.additions) ++ strLit " " ++
      red (strLit "-" ++ intToStr change.deletions) ++ strLit " " ++ change.path
  joinWith (strLit "\n")
    ((if staged.length > 0 then group (strLit "Staged") staged else []) ++
     (if unstaged.length > 0 then group (strLit "Unstaged") unstaged else []))

/-- Result of `GetChanges`: a Go `(nil, err)` return, a successful return, or
a runtime panic escaping the call. -/
inductive GetChangesResult where
  | panicked
  | failed (msg : GoStr)
  | ok (c : Changes)
  deriving DecidableEq

/-- The "not a git repository" error message of `GetChanges`. -/
def notARepoMsg : GoStr := strLit "not a git repository"

/-- `GetChanges` of internal/git/scanner.go.  Error messages are identified by
their leading text (Go wraps causes with `%w`). -/
def GetChanges (env : GitEnv) : GetChangesResult :=
  if IsGitRepo env env.cwd = false then .failed notARepoMsg
  else if env.stagedCmdOk = false then .failed (strLit "failed to get staged changes")
  else
    match parseDiffOutput env.stagedOut with
    | none => .panicked
    | some staged =>
      if env.unstagedCmdOk = false then .failed (strLit "failed to get unstaged changes")
      else
        match parseDiffOutput env.unstagedOut with
        | none => .panicked
        | some unstaged =>
          if staged.length = 0 ∧ unstaged.length = 0 then
            .failed (strLit "no uncommitted changes found")
          else
            .ok { staged := staged, unstaged := unstaged,
                  summary := buildSummary env.green env.red env.yellow staged unstaged }

/-! ## Commit sequencer (src/unnamed/part_005)

The functions run git subcommands through `exec.Command`; a `CmdEnv` supplies
the outcome of each possible subcommand, and every embedded operation returns
the ordered list of git subcommands it actually invoked together with its Go
result. -/

/-- A git subcommand spawned by the commit sequencer. -/
inductive GitCmd where
  | stage
  | commit
  | listRemotes
  | push
  deriving DecidableEq, Repr

/-- Environment for the commit sequencer: whether `FindGitRoot` finds a root,
whether each git subcommand succeeds, and the output of `git remote`
(`none` when that command fails). -/
structure CmdEnv where
  rootFound : Bool
  stageOk : Bool
  commitOk : Bool
  remoteListing : Option GoStr
  pushOk : Bool

/-- Modelled from the spec: `FindGitRoot` (absent from src/, only its callers
are present) locates the version-control root by walking ancestor directories
and fails with a not-a-repository error when none is found; here it is
abstracted to whether a root was found, which is all its callers in
src/unnamed/part_005 depend on. -/
def getGitRoot (env : CmdEnv) : Except GoStr Unit :=
  if env.rootFound then .ok () else .error (strLit "not a git repository")

/-- `StageAll` of src/unnamed/part_005: resolve the root, then `git add -A`. -/
def StageAll (env : CmdEnv) : List GitCmd × Except GoStr Unit :=
  match getGitRoot env with
  | .error e => ([], .error e)
  | .ok _ =>
    ([.stage], if env.stageOk then .ok () else .error (strLit "failed to stage changes"))

/-- `Commit` of src/unnamed/part_005: reject a blank message, resolve the
root, then `git commit -m`. -/
def Commit (env : CmdEnv) (message : GoStr) : List GitCmd × Except GoStr Unit :=
  if trimSpace message = [] then ([], .error (strLit "commit message cannot be empty"))
  else
    match getGitRoot env with
    | .error e => ([], .error e)
    | .ok _ =>
      ([.commit], if env.commitOk then .ok () else .error (strLit "failed to create commit"))

/-- `Push` of src/unnamed/part_005: resolve the root, then `git push`. -/
def Push (env : CmdEnv) : List GitCmd × Except GoStr Unit :=
  match getGitRoot env with
  | .error e => ([], .error e)
  | .ok _ =>
    ([.push], if env.pushOk then .ok () else .error (strLit "failed to push"))

/-- The remote-name scan of `hasRemote`: trim the `git remote` output, and
report whether any newline-separated entry trims to the wanted name. -/
def remoteListHas (output : GoStr) (remoteName : GoStr) : Bool :=
  let list := trimSpace output
  if list = [] then false
  else (splitOnChar '\n' list).any fun remote => trimSpace remote == remoteName

/-- `hasRemote` of src/unnamed/part_005: resolve the root, run `git remote`,
and scan its output for the wanted remote name. -/
def hasRemote (env : CmdEnv) (remoteName : GoStr) : List GitCmd × Except GoStr Bool :=
  match getGitRoot env with
  | .error e => ([], .error e)
  | .ok _ =>
    match env.remoteListing with
    | none => ([.listRemotes], .error (strLit "failed to list git remotes"))
    | some output => ([.listRemotes], .ok (remoteListHas output remoteName))

/-- `defaultRemote` of src/unnamed/part_005. -/
def defaultRemote : GoStr := strLit "origin"

/-- `pushIfRemoteExists` of src/unnamed/part_005: check for the default
remote; push only when it is configured, reporting whether a push occurred. -/
def pushIfRemoteExists (env : CmdEnv) : List GitCmd × Except GoStr Bool :=
  match hasRemote env defaultRemote with
  | (t, .error e) => (t, .error e)
  | (t, .ok false) => (t, .ok false)
  | (t, .ok true) =>
    match Push env with
    | (t2, .error e) => (t ++ t2, .error e)
    | (t2, .ok _) => (t ++ t2, .ok true)

/-- `StageAndCommitAndPush` of src/unnamed/part_005: stage, commit, then
push-if-remote-exists, stopping at the first failure.  Error messages model
the Go wrapping prefixes. -/
def StageAndCommitAndPush (env : CmdEnv) (message : GoStr) :
    List GitCmd × Except GoStr Bool :=
  match StageAll env with
  | (t, .error e) => (t, .error (strLit "failed to stage changes: " ++ e))
  | (t, .ok _) =>
    match Commit env message with
    | (t2, .error e) => (t ++ t2, .error e)
    | (t2, .ok _) =>
      match pushIfRemoteExists env with
      | (t3, .error e) => (t ++ t2 ++ t3, .error (strLit "commit successful but push failed: " ++ e))
      | (t3, .ok pushed) => (t ++ t2 ++ t3, .ok pushed)

/-- Whether a remote named `origin` is configured in the environment: the
`git remote` listing succeeds and contains `origin`. -/
def originConfigured (env : CmdEnv) : Bool :=
  match env.remoteListing with
  | none => false
  | some output => remoteListHas output defaultRemote

/-- Whether an embedded operation returned a Go error. -/
def isErr {α : Type} : Except GoStr α → Bool
  | .error _ => true
  | .ok _ => false

/-! ## Concrete environments used by the theorems -/

/-- A filesystem in which `/repo` holds the `.git` control directory while the
working directory is the subdirectory `/repo/sub`, which holds none; there is
one staged change and the diff commands succeed. -/
def subdirEnv : GitEnv :=
  { cwd := [strLit "repo", strLit "sub"]
    gitDirAt := fun p => p == [strLit "repo"]
    stagedCmdOk := true
    stagedOut := strLit "1\t0\ta.txt"
    unstagedCmdOk := true
    unstagedOut := []
    green := id
    red := id
    yellow := id }

/-- A sequencer environment in which every git subcommand succeeds and the
remote listing names exactly `origin`. -/
def allOkEnv : CmdEnv :=
  { rootFound := true
    stageOk := true
    commitOk := true
    remoteListing := some (strLit "origin")
    pushOk := true }

/-! ## Helper lemmas -/

/-- A failed %d scan leaves the count at its zero value. -/
theorem scanInt_eq_zero_of_not_hasIntForm (s : GoStr) (h : hasIntForm s = false) :
    scanInt s = 0 := by
  unfold hasIntForm at h
  simp only [ne_eq, decide_eq_false_iff_not, not_not] at h
  simp [scanInt, h]

/-- The chosen type-token position is always inside the token list when the
list is non-empty. -/
theorem typeIndexOf_lt (parts : List GoStr) (h : parts ≠ []) :
    typeIndexOf parts < parts.length := by
  unfold typeIndexOf
  split
  · omega
  · cases parts with
    | nil => exact absurd rfl h
    | cons a as => simp

/-- `goFields` of the empty string is empty, so a string with fields is
non-empty. -/
theorem ne_nil_of_goFields_cons (l : GoStr) (p : GoStr) (ps : List GoStr)
    (h : goFields l = p :: ps) : l ≠ [] := by
  intro e
  rw [e] at h
  simp [goFields, goFieldsAux] at h

/-- On a line whose trimmed text splits into at least three fields, the
`parseDiffOutput` loop records a `FileChange` whose counts come from scanning
the first two fields and whose path rejoins every remaining field with single
spaces. -/
theorem processLine_record (line p0 p1 p2 : GoStr) (rest : List GoStr)
    (h : goFields (trimSpace line) = p0 :: p1 :: p2 :: rest) :
    processLine line = LineResult.record
      { path := joinWith (strLit " ") (p2 :: rest)
        type := determineChangeType (scanInt p0) (scanInt p1)
        additions := scanInt p0
        deletions := scanInt p1 } := by
  have hne : trimSpace line ≠ [] := ne_nil_of_goFields_cons _ _ _ h
  simp only [processLine]
  rw [if_neg hne, h]
  cases rest with
  | nil => rfl
  | cons a as =>
    simp only [processFields, List.length_cons]
    rw [if_pos (by omega)]

/-! ## Claim theorems -/

/-- C3: for non-negative counts, `determineChangeType` classifies
`additions > 0, deletions = 0` as Added, `additions = 0, deletions > 0` as
Deleted, and every other pair (including `(0, 0)`) as Modified. -/
theorem determineChangeType_classification (additions deletions : Int)
    (ha : 0 ≤ additions) (hd : 0 ≤ deletions) :
    (additions > 0 ∧ deletions = 0 →
      determineChangeType additions deletions = ChangeType.added) ∧
    (additions = 0 ∧ deletions > 0 →
      determineChangeType additions deletions = ChangeType.deleted) ∧
    (¬(additions > 0 ∧ deletions = 0) → ¬(additions = 0 ∧ deletions > 0) →
      determineChangeType additions deletions = ChangeType.modified) := by
  unfold determineChangeType
  refine ⟨fun h => ?_, fun h => ?_, fun h1 h2 => ?_⟩ <;>
    split_ifs <;> first | rfl | (exfalso; omega)

/-- Witness for C3 at the concrete pairs (3, 0), (0, 2) and (0, 0). -/
theorem determineChangeType_classification_witness :
    determineChangeType 3 0 = ChangeType.added ∧
    determineChangeType 0 2 = ChangeType.deleted ∧
    determineChangeType 0 0 = ChangeType.modified :=
  ⟨(determineChangeType_classification 3 0 (by decide) (by decide)).1 (by decide),
   (determineChangeType_classification 0 2 (by decide) (by decide)).2.1 (by decide),
   (determineChangeType_classification 0 0 (by decide) (by decide)).2.2
     (by decide) (by decide)⟩

/-- C1: `ExtractCommitMessage` is not idempotent.  On "update stuff" it
returns "chore: update stuff", but a second application rewrites the valid
"chore:" token to "chore" (dropping the colon), yielding
"chore update stuff". -/
theorem extractCommitMessage_not_idempotent :
    ExtractCommitMessage (strLit "update stuff") = strLit "chore: update stuff" ∧
    ExtractCommitMessage (ExtractCommitMessage (strLit "update stuff")) =
      strLit "chore update stuff" ∧
    ExtractCommitMessage (ExtractCommitMessage (strLit "update stuff")) ≠
      ExtractCommitMessage (strLit "update stuff") := by
  decide

/-- C2: when the extracted type is a vocabulary member,
`ExtractCommitMessage` replaces the whole type token (scope and colon
included) by the bare type name rather than only fixing its case:
"feat: add login" becomes "feat add login" and "FIX(ui): repair button"
becomes "fix repair button". -/
theorem extractCommitMessage_strips_type_token :
    ExtractCommitMessage (strLit "feat: add login") = strLit "feat add login" ∧
    ExtractCommitMessage (strLit "feat: add login") ≠ strLit "feat: add login" ∧
    ExtractCommitMessage (strLit "FIX(ui): repair button") = strLit "fix repair button" ∧
    ExtractCommitMessage (strLit "FIX(ui): repair button") ≠ strLit "fix(ui): repair button" := by
  decide

/-- C6: the leading fence line is discarded and the next line promoted (a
lone fence yields the empty string), and the trailing fence is stripped, but
the promoted "feat: add x" is then mangled to "feat add x" by the type
normalizer instead of being returned intact. -/
theorem extractCommitMessage_fence_example :
    ExtractCommitMessage (strLit "```\nfeat: add x\n```") = strLit "feat add x" ∧
    ExtractCommitMessage (strLit "```\nfeat: add x\n```") ≠ strLit "feat: add x" ∧
    ExtractCommitMessage (strLit "```") = [] := by
  decide

/-- C10: `parseDiffOutput` is not total: a line with exactly two
whitespace-delimited tokens passes the `len(parts) < 2` guard and the
subsequent `parts[2]` access is out of bounds, a runtime panic (modelled as
`none`); `processFields` panics on every two-token field list. -/
theorem parseDiffOutput_two_token_panic :
    parseDiffOutput (strLit "1\t2") = none ∧
    ∀ p0 p1 : GoStr, processFields [p0, p1] = LineResult.panicIdx :=
  ⟨by decide, fun _ _ => rfl⟩

/-- C5: the loop of `parseDiffOutput` takes the first two whitespace-delimited
tokens of a diff-stat line as the addition and deletion counts and joins the
remaining tokens back into the path; in particular
"3\t1\tfile name with spaces.txt" parses to the path
"file name with spaces.txt" with additions 3 and deletions 1. -/
theorem parseDiffOutput_path_with_spaces :
    (∀ (line p0 p1 p2 : GoStr) (rest : List GoStr),
      goFields (trimSpace line) = p0 :: p1 :: p2 :: rest →
      processLine line = LineResult.record
        { path := joinWith (strLit " ") (p2 :: rest)
          type := determineChangeType (scanInt p0) (scanInt p1)
          additions := scanInt p0
          deletions := scanInt p1 }) ∧
    parseDiffOutput (strLit "3\t1\tfile name with spaces.txt") =
      some [{ path := strLit "file name with spaces.txt"
              type := ChangeType.modified
              additions := 3
              deletions := 1 }] :=
  ⟨fun line p0 p1 p2 rest h => processLine_record line p0 p1 p2 rest h, by decide⟩

/-- Witness for C5 at the concrete line "5\t7\ta b". -/
theorem parseDiffOutput_path_with_spaces_witness :
    processLine (strLit "5\t7\ta b") = LineResult.record
      { path := joinWith (strLit " ") [strLit "a", strLit "b"]
        type := determineChangeType (scanInt (strLit "5")) (scanInt (strLit "7"))
        additions := scanInt (strLit "5")
        deletions := scanInt (strLit "7") } :=
  parseDiffOutput_path_with_spaces.1 (strLit "5\t7\ta b")
    (strLit "5") (strLit "7") (strLit "a") [strLit "b"] (by decide)

/-- C8: a diff-stat line whose count columns are not parseable as decimal
integers (such as the binary-file marker "-") is still recorded, with the
unparseable counts degraded to zero; in particular "-\t-\tfile.bin" yields
the entry for path "file.bin" with zero additions and deletions. -/
theorem parseDiffOutput_degrades_bad_counts :
    (∀ (line p0 p1 p2 : GoStr) (rest : List GoStr),
      goFields (trimSpace line) = p0 :: p1 :: p2 :: rest →
      hasIntForm p0 = false → hasIntForm p1 = false →
      processLine line = LineResult.record
        { path := joinWith (strLit " ") (p2 :: rest)
          type := ChangeType.modified
          additions := 0
          deletions := 0 }) ∧
    parseDiffOutput (strLit "-\t-\tfile.bin") =
      some [{ path := strLit "file.bin"
              type := ChangeType.modified
              additions := 0
              deletions := 0 }] := by
  constructor
  · intro line p0 p1 p2 rest h h0 h1
    rw [processLine_record line p0 p1 p2 rest h,
      scanInt_eq_zero_of_not_hasIntForm p0 h0,
      scanInt_eq_zero_of_not_hasIntForm p1 h1]
    rfl
  · decide

/-- Witness for C8 at the concrete binary-file line "-\t-\tb.png". -/
theorem parseDiffOutput_degrades_bad_counts_witness :
    processLine (strLit "-\t-\tb.png") = LineResult.record
      { path := joinWith (strLit " ") [strLit "b.png"]
        type := ChangeType.modified
        additions := 0
        deletions := 0 } :=
  parseDiffOutput_degrades_bad_counts.1 (strLit "-\t-\tb.png")
    (strLit "-") (strLit "-") (strLit "b.png") [] (by decide) (by decide) (by decide)

/-- C7: when the extracted type matches no vocabulary member (exactly or
case-insensitively), the normalizer prepends "chore: " to the whole message
unless the message already starts, case-insensitively, with chore, feat or
fix, in which case it is returned unmodified; and
`ExtractCommitMessage "update stuff" = "chore: update stuff"`. -/
theorem validateAndNormalize_unrecognized_default :
    (∀ message : GoStr,
      goFields message ≠ [] →
      validCommitTypes.contains
        (extractTypeName ((goFields message).getD (typeIndexOf (goFields message)) [])) = false →
      validCommitTypes.find? (fun v => equalFold
        (extractTypeName ((goFields message).getD (typeIndexOf (goFields message)) [])) v) = none →
      (hasPrefix (toLowerAscii message) (strLit "chore") = false ∧
       hasPrefix (toLowerAscii message) (strLit "feat") = false ∧
       hasPrefix (toLowerAscii message) (strLit "fix") = false →
        validateAndNormalizeCommitType message = strLit "chore: " ++ message) ∧
      (¬(hasPrefix (toLowerAscii message) (strLit "chore") = false ∧
         hasPrefix (toLowerAscii message) (strLit "feat") = false ∧
         hasPrefix (toLowerAscii message) (strLit "fix") = false) →
        validateAndNormalizeCommitType message = message)) ∧
    ExtractCommitMessage (strLit "update stuff") = strLit "chore: update stuff" := by
  constructor
  · intro message hne hcont hfind
    have hlt := typeIndexOf_lt (goFields message) hne
    simp only [validateAndNormalizeCommitType]
    rw [if_neg hne,
      if_neg (by omega : ¬ typeIndexOf (goFields message) ≥ (goFields message).length),
      if_pos hcont, hfind]
    exact ⟨fun hp => by rw [if_pos hp], fun hp => by rw [if_neg hp]⟩
  · decide

/-- Witness for C7 at the concrete message "update stuff". -/
theorem validateAndNormalize_unrecognized_default_witness :
    validateAndNormalizeCommitType (strLit "update stuff") =
      strLit "chore: " ++ strLit "update stuff" :=
  (validateAndNormalize_unrecognized_default.1 (strLit "update stuff")
    (by decide) (by decide) (by decide)).1 (by decide)

/-- C9 counterexample: `GetChanges` does not walk ancestor directories.  In
`subdirEnv` the working directory `/repo/sub` sits inside the working tree
rooted at `/repo`, whose control directory exists, yet `GetChanges` returns
the not-a-repository error because `/repo/sub/.git` itself does not exist. -/
theorem getChanges_subdir_counterexample :
    GetChanges subdirEnv = GetChangesResult.failed notARepoMsg ∧
    subdirEnv.cwd = [strLit "repo", strLit "sub"] ∧
    subdirEnv.gitDirAt [strLit "repo"] = true ∧
    subdirEnv.gitDirAt subdirEnv.cwd = false := by
  refine ⟨by decide, rfl, by decide, by decide⟩

/-- C9 amended: `GetChanges` reports the not-a-repository error exactly when
the current working directory itself lacks a `.git` control directory;
ancestors are never consulted. -/
theorem getChanges_notARepo_iff (env : GitEnv) :
    GetChanges env = GetChangesResult.failed notARepoMsg ↔
      env.gitDirAt env.cwd = false := by
  unfold GetChanges IsGitRepo
  constructor
  · intro h
    split at h
    · assumption
    · exfalso
      split at h
      · exact absurd (GetChangesResult.failed.inj h) (by decide)
      · split at h
        · exact GetChangesResult.noConfusion h
        · split at h
          · exact absurd (GetChangesResult.failed.inj h) (by decide)
          · split at h
            · exact GetChangesResult.noConfusion h
            · split at h
              · exact absurd (GetChangesResult.failed.inj h) (by decide)
              · exact GetChangesResult.noConfusion h
  · intro h
    rw [if_pos h]

/-- Witness for C9's amended theorem at the concrete environment
`subdirEnv`. -/
theorem getChanges_notARepo_iff_witness :
    GetChanges subdirEnv = GetChangesResult.failed notARepoMsg :=
  (getChanges_notARepo_iff subdirEnv).mpr (by decide)

/-- C4: `StageAndCommitAndPush` runs its git subcommands in the strict order
stage, commit, remote check, push (its trace is always a prefix of that
sequence); a staging or commit failure yields an error with no push invoked;
push is invoked only when the remote listing names origin; and the returned
boolean reports exactly whether a push occurred. -/
theorem stageAndCommitAndPush_order (env : CmdEnv) (message : GoStr) :
    ((StageAndCommitAndPush env message).1.isPrefixOf
        [GitCmd.stage, GitCmd.commit, GitCmd.listRemotes, GitCmd.push]) = true ∧
    (isErr (StageAll env).2 = true →
      isErr (StageAndCommitAndPush env message).2 = true ∧
      GitCmd.push ∉ (StageAndCommitAndPush env message).1) ∧
    (isErr (Commit env message).2 = true →
      isErr (StageAndCommitAndPush env message).2 = true ∧
      GitCmd.push ∉ (StageAndCommitAndPush env message).1) ∧
    (GitCmd.push ∈ (StageAndCommitAndPush env message).1 →
      originConfigured env = true) ∧
    (∀ b, (StageAndCommitAndPush env message).2 = Except.ok b →
      (b = true ↔ GitCmd.push ∈ (StageAndCommitAndPush env message).1)) := by
  obtain ⟨root, stageOk, commitOk, listing, pushOk⟩ := env
  by_cases hm : trimSpace message = [] <;>
    cases root <;> cases stageOk <;> cases commitOk <;> cases pushOk <;>
    rcases listing with _ | out <;>
    simp [StageAndCommitAndPush, StageAll, Commit, Push, pushIfRemoteExists,
      hasRemote, getGitRoot, originConfigured, isErr, hm] <;>
    first
      | decide
      | (generalize remoteListHas out defaultRemote = ho;
         cases ho <;> simp [List.isPrefixOf])

/-- Witness for C4 in the all-success environment `allOkEnv` with the message
"fix bug": push is in the trace, so origin must be configured. -/
theorem stageAndCommitAndPush_order_witness :
    originConfigured allOkEnv = true :=
  (stageAndCommitAndPush_order allOkEnv (strLit "fix bug")).2.2.2.1 (by decide)

end AutoGit
